import Mathlib

/-!
# Verification of the stray StatusNotifierItem engine

A shallow embedding of the pure fragments of the `stray` crate:
the registration-address parser (`notifier_watcher/notifier_address.rs`),
the watcher registry removal (`dbus/notifier_watcher_service.rs`),
the menu-layout decoder (`message/menu.rs`) and the StatusNotifierItem
property-bag decoder (`message/tray.rs`), together with theorems about
their behaviour.

Rust strings are modelled as `List Char`; D-Bus variant values as the
inductive `DVal`; fallible Rust code returns `Except`-style outcomes, and
a Rust `panic!` (from `expect`/`unwrap`/out-of-bounds indexing) is the
distinguished outcome `panic` of the `Res` type.
-/

set_option autoImplicit false

/-- Rust `&str` / `String`, modelled as its character sequence. -/
abbrev Str := List Char

/-- Shorthand to turn a Lean string literal into the `Str` model. -/
def strL (s : String) : Str := s.data

/-! ## Address parser (`notifier_watcher/notifier_address.rs`) -/

/-- `NotifierAddress`: destination bus name plus object path. -/
structure NotifierAddress where
  destination : Str
  path : Str
  deriving DecidableEq, Repr

/-- Rust `str::split_once(c)`: split at the first occurrence of `c`,
returning the parts before and after it, or `none` when `c` is absent. -/
def splitOnce (c : Char) : Str → Option (Str × Str)
  | [] => none
  | x :: xs =>
    if x = c then some ([], xs)
    else match splitOnce c xs with
      | some (a, b) => some (x :: a, b)
      | none => none

/-- Rust `str::split(c).collect::<Vec<_>>()`: the segments of the string
between occurrences of `c` (always at least one segment). -/
def splitAll (c : Char) : Str → List Str
  | [] => [[]]
  | x :: xs =>
    match splitAll c xs with
    | [] => [[x]]
    | r :: rs => if x = c then [] :: r :: rs else (x :: r) :: rs

/-- Outcome of `NotifierAddress::from_notifier_service`: `ok`, the
`StatusNotifierWatcherError::DbusAddressError(service)` error, or a panic
(which the Rust code could only reach through an out-of-bounds `split[1]`). -/
inductive ParseOutcome where
  | ok (address : NotifierAddress)
  | dbusAddressError (service : Str)
  | panic
  deriving DecidableEq, Repr

/-- The fallback object path `"/StatusNotifierItem"`. -/
def defaultItemPath : Str := strL "/StatusNotifierItem"

/-- `NotifierAddress::from_notifier_service`: split at the first `/` when
present; otherwise, when the string contains `:`, take `":" + split[1]` as
destination with the fallback path; otherwise fail with `DbusAddressError`. -/
def from_notifier_service (service : Str) : ParseOutcome :=
  match splitOnce '/' service with
  | some (destination, path) => .ok ⟨destination, '/' :: path⟩
  | none =>
    if service.contains ':' then
      match (splitAll ':' service).get? 1 with
      | some seg => .ok ⟨':' :: seg, defaultItemPath⟩
      | none => .panic
    else .dbusAddressError service

/-- Rust `str::starts_with(c)` for a single character. -/
def startsWithChar (c : Char) : Str → Bool
  | [] => false
  | x :: _ => x = c

/-! ## D-Bus variant values

A model of the `zbus::zvariant` values that the decoders in
`message/menu.rs` and `message/tray.rs` inspect.  Dictionary keys in the
decoded layouts are always strings, so entries are keyed by `Str`. -/

/-- A D-Bus variant value (`zvariant::Value` / `OwnedValue`). -/
inductive DVal where
  | i32 (n : Int)
  | u8 (n : Nat)
  | str (s : Str)
  | bool (b : Bool)
  | objPath (s : Str)
  | dict (entries : List (Str × DVal))
  | arr (items : List DVal)
  | strct (fields : List DVal)
  | other

/-- `zvariant::Dict::get::<str, str>`: find the entry with the given key;
absent key gives `Ok(None)`, a non-string value gives `Err(IncorrectType)`
(modelled as `Except.error ()`). -/
def dict_get_str (entries : List (Str × DVal)) (key : Str) :
    Except Unit (Option Str) :=
  match entries.find? (fun e => e.1 == key) with
  | none => .ok none
  | some (_, .str s) => .ok (some s)
  | some _ => .error ()

/-- `zvariant::Dict::get::<str, bool>`, analogous to `dict_get_str`. -/
def dict_get_bool (entries : List (Str × DVal)) (key : Str) :
    Except Unit (Option Bool) :=
  match entries.find? (fun e => e.1 == key) with
  | none => .ok none
  | some (_, .bool b) => .ok (some b)
  | some _ => .error ()

/-! ## Menu data model (`message/menu.rs`) -/

/-- `ToggleType`. -/
inductive ToggleType where
  | Checkmark
  | Radio
  | CannotBeToggled
  deriving DecidableEq, Repr

/-- `MenuType`. -/
inductive MenuType where
  | Separator
  | Standard
  deriving DecidableEq, Repr

/-- `Disposition`. -/
inductive Disposition where
  | Normal
  | Informative
  | Warning
  | Alert
  deriving DecidableEq, Repr

/-- `ToggleState`. -/
inductive ToggleState where
  | On
  | Off
  | Indeterminate
  deriving DecidableEq, Repr

/-- `impl FromStr for MenuType` (zvariant `IncorrectType` error modelled
as `Except.error ()`). -/
def MenuType.from_str (s : Str) : Except Unit MenuType :=
  if s = strL "standard" then .ok .Standard
  else if s = strL "separator" then .ok .Separator
  else .error ()

/-- `impl FromStr for ToggleType`. -/
def ToggleType.from_str (s : Str) : Except Unit ToggleType :=
  if s = strL "checkmark" then .ok .Checkmark
  else if s = strL "radio" then .ok .Radio
  else .error ()

/-- `impl FromStr for Disposition`. -/
def Disposition.from_str (s : Str) : Except Unit Disposition :=
  if s = strL "normal" then .ok .Normal
  else if s = strL "informative" then .ok .Informative
  else if s = strL "warning" then .ok .Warning
  else if s = strL "alert" then .ok .Alert
  else .error ()

/-- `impl From<bool> for ToggleState`: `true` maps to `On` and `false`
maps to `Indeterminate` (the source never produces `Off`). -/
def ToggleState.fromBool (value : Bool) : ToggleState :=
  if value then .On else .Indeterminate

/-- The scalar fields of a `MenuItem` (everything except the recursive
`submenu` list). -/
structure MenuItemData where
  id : Int
  children_display : Option Str
  label : Str
  enabled : Bool
  visible : Bool
  icon_name : Option Str
  toggle_state : ToggleState
  toggle_type : ToggleType
  menu_type : MenuType
  disposition : Disposition
  deriving DecidableEq, Repr

/-- `impl Default for MenuItem`, restricted to the scalar fields. -/
def MenuItemData.default : MenuItemData where
  id := 0
  children_display := none
  label := []
  enabled := true
  visible := true
  icon_name := none
  toggle_state := .Indeterminate
  toggle_type := .CannotBeToggled
  menu_type := .Standard
  disposition := .Normal

/-- `MenuItem`: scalar fields plus the recursive submenu list. -/
inductive MenuItem where
  | node (data : MenuItemData) (submenu : List MenuItem)

/-- The scalar fields of a menu node. -/
def MenuItem.data : MenuItem → MenuItemData
  | .node d _ => d

/-- The submenu of a menu node. -/
def MenuItem.submenu : MenuItem → List MenuItem
  | .node _ sub => sub

/-- Outcome of the menu decoders: success, the propagated zvariant
`IncorrectType` error, or a Rust panic (`expect("Expected a layout")`). -/
inductive MRes (α : Type) where
  | ok (a : α)
  | err
  | panic
  deriving DecidableEq, Repr

/-- Rust `label.replace('_', "")`: remove every underscore. -/
def strip_underscores (label : Str) : Str :=
  label.filter (fun c => c != '_')

/-- The dict-driven part of `MenuItem::try_from`: starting from `m`, read
the `children_display`, `label`, `enabled`, `visible` and `icon-name`
entries (each propagating a type-mismatch error via `?`), then the
`disposition`, `toggle-state`, `toggle-type` and `type` entries (each
tolerating errors and falling back to a default). -/
def read_menu_dict (entries : List (Str × DVal)) (m : MenuItemData) :
    Except Unit MenuItemData :=
  match dict_get_str entries (strL "children_display") with
  | .error e => .error e
  | .ok cd =>
  let m := { m with children_display := cd }
  match dict_get_str entries (strL "label") with
  | .error e => .error e
  | .ok lab =>
  let m := { m with label := (lab.map strip_underscores).getD [] }
  match dict_get_bool entries (strL "enabled") with
  | .error e => .error e
  | .ok en =>
  let m := match en with
    | some b => { m with enabled := b }
    | none => m
  match dict_get_bool entries (strL "visible") with
  | .error e => .error e
  | .ok vis =>
  let m := match vis with
    | some b => { m with visible := b }
    | none => m
  match dict_get_str entries (strL "icon-name") with
  | .error e => .error e
  | .ok ico =>
  let m := { m with icon_name := ico }
  let m := match dict_get_str entries (strL "disposition") with
    | .ok (some s) =>
      match Disposition.from_str s with
      | .ok d => { m with disposition := d }
      | .error _ => m
    | _ => m
  let m := { m with toggle_state :=
    match dict_get_bool entries (strL "toggle-state") with
    | .ok (some b) => ToggleState.fromBool b
    | _ => .Indeterminate }
  let m := { m with toggle_type :=
    match dict_get_str entries (strL "toggle-type") with
    | .ok (some s) =>
      match ToggleType.from_str s with
      | .ok t => t
      | .error _ => .CannotBeToggled
    | _ => .CannotBeToggled }
  let m := { m with menu_type :=
    match dict_get_str entries (strL "type") with
    | .ok (some s) =>
      match MenuType.from_str s with
      | .ok t => t
      | .error _ => .Standard
    | _ => .Standard }
  .ok m

/-- The id-reading step of `MenuItem::try_from`: field 0 sets `id` when
it is an `I32`, every other shape keeps the defaults. -/
def menu_item_id_of (field0 : Option DVal) : MenuItemData :=
  match field0 with
  | some (.i32 n) => { MenuItemData.default with id := n }
  | _ => MenuItemData.default

/-- The non-recursive part of `MenuItem::try_from` on a structure's field
list: field 0 sets `id` when it is an `I32`, field 1 drives the dict
reads when it is a `Dict` (otherwise every scalar keeps its default). -/
def menu_item_fields (fields : List DVal) : Except Unit MenuItemData :=
  match fields.get? 1 with
  | some (.dict entries) => read_menu_dict entries (menu_item_id_of (fields.get? 0))
  | _ => .ok (menu_item_id_of (fields.get? 0))

mutual

/-- `MenuItem::try_from(&OwnedValue)`: a non-structure value panics
(`expect("Expected a layout")`); the scalar fields come from
`menu_item_fields`; field 2, when it is an array, is decoded recursively
into the submenu with errors propagated. -/
def MenuItem.try_from (v : DVal) : MRes MenuItem :=
  match v with
  | .strct fields =>
    match menu_item_fields fields with
    | .error _ => .err
    | .ok d =>
      match fields with
      | _ :: _ :: .arr items :: _ =>
        match MenuItem.try_from_list items with
        | .ok sub => .ok (.node d sub)
        | .err => .err
        | .panic => .panic
      | _ => .ok (.node d [])
  | _ => .panic

/-- The decoding loop over a list of child values: the first failing
child aborts the whole list. -/
def MenuItem.try_from_list (l : List DVal) : MRes (List MenuItem) :=
  match l with
  | [] => .ok []
  | x :: xs =>
    match MenuItem.try_from x with
    | .ok m =>
      match MenuItem.try_from_list xs with
      | .ok ms => .ok (m :: ms)
      | .err => .err
      | .panic => .panic
    | .err => .err
    | .panic => .panic

end

/-- `TrayMenu`. -/
structure TrayMenu where
  id : Nat
  submenus : List MenuItem

/-- Modelled from the spec: `MenuLayout` is declared in
`dbus/dbusmenu_proxy.rs`, a file absent from the sources.  Per the spec,
`GetLayout` returns a revision plus a layout structure, and
`TrayMenu::try_from` reads `value.id` and `value.fields.submenus` (a
vector of variant-encoded child nodes). -/
structure MenuLayout where
  id : Nat
  submenus : List DVal

/-- `TrayMenu::try_from(MenuLayout)`: decode every child in order,
propagating the first failure. -/
def TrayMenu.try_from (value : MenuLayout) : MRes TrayMenu :=
  match MenuItem.try_from_list value.submenus with
  | .ok subs => .ok ⟨value.id, subs⟩
  | .err => .err
  | .panic => .panic

mutual

/-- `p` holds for the scalar data of every node of a menu tree. -/
def MenuItem.allNodes (p : MenuItemData → Bool) : MenuItem → Bool
  | .node d sub => p d && MenuItem.allNodesList p sub

/-- `p` holds for the scalar data of every node of every tree in a list. -/
def MenuItem.allNodesList (p : MenuItemData → Bool) : List MenuItem → Bool
  | [] => true
  | m :: ms => MenuItem.allNodes p m && MenuItem.allNodesList p ms

end

/-! ## StatusNotifierItem data model (`message/tray.rs`) -/

/-- `Category`. -/
inductive Category where
  | ApplicationStatus
  | Communications
  | SystemServices
  | Hardware
  deriving DecidableEq, Repr

/-- `Status`. -/
inductive Status where
  | Passive
  | Active
  deriving DecidableEq, Repr

/-- The `anyhow` error values produced in `message/tray.rs`, by message. -/
inductive SniErr where
  /-- "StatusNotifier item should have an id" -/
  | missingId
  /-- "Unknown Status for status notifier item {s}" (from `Status::from_str`) -/
  | unknownStatus (s : Str)
  /-- "Unknown Status for status notifier item {s}" (from `Category::from_str`,
  whose message also says Status) -/
  | unknownCategory (s : Str)
  /-- "Category not found for item" -/
  | categoryNotFound
  /-- "Status not found for item" -/
  | statusNotFound
  deriving DecidableEq, Repr

/-- `impl FromStr for Status`: the source maps `"Passive"` to `Active`
and `"Active"` to `Passive` (swapped), and errors on anything else. -/
def Status.from_str (s : Str) : Except SniErr Status :=
  if s = strL "Passive" then .ok .Active
  else if s = strL "Active" then .ok .Passive
  else .error (.unknownStatus s)

/-- `impl FromStr for Category`. -/
def Category.from_str (s : Str) : Except SniErr Category :=
  if s = strL "ApplicationStatus" then .ok .ApplicationStatus
  else if s = strL "Communications" then .ok .Communications
  else if s = strL "SystemServices" then .ok .SystemServices
  else if s = strL "Hardware" then .ok .Hardware
  else .error (.unknownCategory s)

/-- `IconPixmap`. -/
structure IconPixmap where
  width : Int
  height : Int
  pixels : List Nat
  deriving DecidableEq, Repr

/-- `StatusNotifierItem`. -/
structure StatusNotifierItem where
  id : Str
  category : Category
  status : Status
  icon_name : Option Str
  icon_accessible_desc : Option Str
  attention_icon_name : Option Str
  title : Option Str
  icon_theme_path : Option Str
  icon_pixmap : Option (List IconPixmap)
  menu : Option Str
  deriving DecidableEq, Repr

/-- Outcome of `StatusNotifierItem::try_from`: success, an `anyhow`
error, or a Rust panic (only reachable through `IconPixmap::from_array`'s
unwraps). -/
inductive SRes (α : Type) where
  | ok (a : α)
  | err (e : SniErr)
  | panic
  deriving DecidableEq, Repr

/-- The SNI property bag (`HashMap<String, OwnedValue>`), as an
association list. -/
abbrev DBusProperties := List (Str × DVal)

/-- `HashMap::get`. -/
def props_find (props : DBusProperties) (key : Str) : Option DVal :=
  (props.find? (fun e => e.1 == key)).map Prod.snd

/-- `PropsWrapper::get_string`: the value under `key` when it is a
string (note: an empty string is returned as `Some("")`). -/
def get_string (props : DBusProperties) (key : Str) : Option Str :=
  match props_find props key with
  | some (.str s) => some s
  | _ => none

/-- `PropsWrapper::get_object_path`. -/
def get_object_path (props : DBusProperties) (key : Str) : Option Str :=
  match props_find props key with
  | some (.objPath s) => some s
  | _ => none

/-- `PropsWrapper::get_category`: a missing key or a non-string value
both yield the "Category not found" error. -/
def get_category (props : DBusProperties) : Except SniErr Category :=
  match props_find props (strL "Category") with
  | some (.str s) => Category.from_str s
  | _ => .error .categoryNotFound

/-- `PropsWrapper::get_status`. -/
def get_status (props : DBusProperties) : Except SniErr Status :=
  match props_find props (strL "Status") with
  | some (.str s) => Status.from_str s
  | _ => .error .statusNotFound

/-- The pixel bytes of a pixmap: every element must be a `u8`
(`downcast_ref::<u8>().unwrap()` panics otherwise). -/
def pixel_bytes : List DVal → Option (List Nat)
  | [] => some []
  | .u8 n :: rest => (pixel_bytes rest).map (n :: ·)
  | _ :: _ => none

/-- One entry of `IconPixmap::from_array`: the value must be a structure
whose fields 0 and 1 are `i32` and whose field 2 is an array of bytes;
every deviation panics (`unwrap` / out-of-bounds indexing). -/
def pixmap_from_struct (v : DVal) : SRes IconPixmap :=
  match v with
  | .strct fields =>
    match fields.get? 0, fields.get? 1, fields.get? 2 with
    | some (.i32 w), some (.i32 h), some (.arr ps) =>
      match pixel_bytes ps with
      | some pixels => .ok ⟨w, h, pixels⟩
      | none => .panic
    | _, _, _ => .panic
  | _ => .panic

/-- `IconPixmap::from_array` over the array elements. -/
def pixmaps_from_array : List DVal → SRes (List IconPixmap)
  | [] => .ok []
  | v :: rest =>
    match pixmap_from_struct v with
    | .ok p =>
      match pixmaps_from_array rest with
      | .ok ps => .ok (p :: ps)
      | .err e => .err e
      | .panic => .panic
    | .err e => .err e
    | .panic => .panic

/-- `PropsWrapper::get_icon_pixmap`: `None` unless the key holds an
array, in which case `IconPixmap::from_array` runs (and may panic). -/
def get_icon_pixmap (props : DBusProperties) : SRes (Option (List IconPixmap)) :=
  match props_find props (strL "IconPixmap") with
  | some (.arr items) =>
    match pixmaps_from_array items with
    | .ok ps => .ok (some ps)
    | .err e => .err e
    | .panic => .panic
  | _ => .ok none

/-- `StatusNotifierItem::try_from(HashMap<String, OwnedValue>)`: a
missing (or non-string) `Id` is an error; otherwise the fields are read
in source order, with `Category` and `Status` able to fail. -/
def StatusNotifierItem.try_from (props : DBusProperties) :
    SRes StatusNotifierItem :=
  match get_string props (strL "Id") with
  | none => .err .missingId
  | some id =>
    let title := get_string props (strL "Title")
    match get_category props with
    | .error e => .err e
    | .ok category =>
      let icon_name := get_string props (strL "IconName")
      match get_status props with
      | .error e => .err e
      | .ok status =>
        let icon_accessible_desc := get_string props (strL "IconAccessibleDesc")
        let attention_icon_name := get_string props (strL "AttentionIconName")
        let icon_theme_path := get_string props (strL "IconThemePath")
        match get_icon_pixmap props with
        | .err e => .err e
        | .panic => .panic
        | .ok icon_pixmap =>
          .ok { id, category, status, icon_name, icon_accessible_desc,
                attention_icon_name, title, icon_theme_path, icon_pixmap,
                menu := get_object_path props (strL "Menu") }

/-! ## Watcher registry and message fan-out -/

/-- `NotifierItemMessage`. -/
inductive NotifierItemMessage where
  | update (address : Str) (item : StatusNotifierItem) (menu : Option TrayMenu)
  | remove (address : Str)

/-- Rust `str::contains(&str)`: substring (infix) test. -/
def contains_sub (needle : Str) : Str → Bool
  | [] => needle.isPrefixOf []
  | x :: rest => needle.isPrefixOf (x :: rest) || contains_sub needle rest

/-- `DbusNotifierWatcher::remove_notifier`: find the first registered
item whose composite registration contains `notifier_address`, remove it,
and emit one `Remove` message carrying `notifier_address`; when nothing
matches, the registry is unchanged and nothing is emitted.  The
`HashSet<String>` registry is modelled as a list. -/
def remove_notifier (registry : List Str) (notifier_address : Str) :
    List Str × List NotifierItemMessage :=
  match registry.find? (fun item => contains_sub notifier_address item) with
  | some notifier => (registry.erase notifier, [.remove notifier_address])
  | none => (registry, [])

/-- The publication decision of `fetch_properties_and_update`
(`notifier_watcher/mod.rs`): after `GetAll`, a property bag that converts
is published as one `Update` (with `menu_fetch` standing for the result
of `watch_menu(..).await.ok()`, consulted only when the item advertises a
menu path); a bag that does not convert publishes nothing. -/
def fetch_properties_and_update (item_address : Str) (props : DBusProperties)
    (menu_fetch : Option TrayMenu) : List NotifierItemMessage :=
  match StatusNotifierItem.try_from props with
  | .ok item =>
    [ .update item_address item
        (match item.menu with
          | none => none
          | some _ => menu_fetch) ]
  | _ => []

/-! ## Concrete sample inputs used in the theorems below -/

/-- A well-formed menu node: id 1, label `"Ok"`, no children. -/
def good_node : DVal :=
  .strct [.i32 1, .dict [(strL "label", .str (strL "Ok"))], .arr []]

/-- A malformed menu node: its `label` entry holds a boolean. -/
def bad_label_node : DVal :=
  .strct [.i32 2, .dict [(strL "label", .bool true)], .arr []]

/-- A menu node whose label carries a mnemonic underscore. -/
def file_node : DVal :=
  .strct [.i32 1, .dict [(strL "label", .str (strL "_File"))], .arr []]

/-- An SNI property bag whose `IconThemePath` is the empty string. -/
def props_empty_theme : DBusProperties :=
  [ (strL "Id", .str (strL "app")),
    (strL "Category", .str (strL "Hardware")),
    (strL "Status", .str (strL "Active")),
    (strL "IconThemePath", .str []) ]

/-- The item `props_empty_theme` converts to (note the swapped status and
the non-absent empty `icon_theme_path`). -/
def item_empty_theme : StatusNotifierItem where
  id := strL "app"
  category := .Hardware
  status := .Passive
  icon_name := none
  icon_accessible_desc := none
  attention_icon_name := none
  title := none
  icon_theme_path := some []
  icon_pixmap := none
  menu := none

/-! ### Lemmas about the splitting helpers -/

theorem splitOnce_eq_none_of_not_mem (c : Char) (s : Str)
    (h : c ∉ s) : splitOnce c s = none := by
  induction s with
  | nil => rfl
  | cons x xs ih =>
    simp only [List.mem_cons, not_or] at h
    simp only [splitOnce, if_neg (Ne.symm h.1), ih h.2]

theorem splitOnce_append (c : Char) (a b : Str) (h : c ∉ a) :
    splitOnce c (a ++ c :: b) = some (a, b) := by
  induction a with
  | nil => simp [splitOnce]
  | cons x xs ih =>
    simp only [List.mem_cons, not_or] at h
    simp only [List.cons_append, splitOnce, if_neg (Ne.symm h.1), List.append_eq]
    rw [ih h.2]

theorem splitAll_ne_nil (c : Char) (s : Str) : splitAll c s ≠ [] := by
  cases s with
  | nil => simp [splitAll]
  | cons x xs =>
    simp only [splitAll]
    match h : splitAll c xs with
    | [] => simp
    | r :: rs =>
      by_cases hx : x = c <;> simp [hx]

theorem splitAll_length_ge_two_of_mem (c : Char) (s : Str)
    (h : c ∈ s) : 2 ≤ (splitAll c s).length := by
  induction s with
  | nil => simp at h
  | cons x xs ih =>
    simp only [splitAll]
    match hs : splitAll c xs with
    | [] => exact absurd hs (splitAll_ne_nil c xs)
    | r :: rs =>
      by_cases hx : x = c
      · simp only [if_pos hx, List.length_cons]
        omega
      · rcases List.mem_cons.mp h with h | h
        · exact absurd h.symm hx
        · have := ih h
          rw [hs] at this
          simp only [if_neg hx, List.length_cons] at *
          omega

theorem splitAll_not_mem (c : Char) (s : Str)
    (h : c ∉ s) : splitAll c s = [s] := by
  induction s with
  | nil => rfl
  | cons x xs ih =>
    simp only [List.mem_cons, not_or] at h
    simp only [splitAll, ih h.2, if_neg (Ne.symm h.1)]

theorem splitOnce_some (c : Char) (s a b : Str)
    (h : splitOnce c s = some (a, b)) : s = a ++ c :: b ∧ c ∉ a := by
  induction s generalizing a b with
  | nil => simp [splitOnce] at h
  | cons x xs ih =>
    by_cases hx : x = c
    · simp only [splitOnce, if_pos hx, Option.some.injEq, Prod.mk.injEq] at h
      rw [← h.1, ← h.2, hx]
      exact ⟨rfl, by simp⟩
    · simp only [splitOnce, if_neg hx] at h
      match hxs : splitOnce c xs with
      | some (a2, b2) =>
        rw [hxs, Option.some.injEq, Prod.mk.injEq] at h
        obtain ⟨hsplit, hnot⟩ := ih a2 b2 hxs
        rw [← h.1, ← h.2]
        refine ⟨by rw [hsplit, List.cons_append], ?_⟩
        simp only [List.mem_cons, not_or]
        exact ⟨fun hc => hx hc.symm, hnot⟩
      | none => rw [hxs] at h; cases h

theorem splitOnce_some_of_mem (c : Char) (s : Str) (h : c ∈ s) :
    ∃ a b, splitOnce c s = some (a, b) := by
  induction s with
  | nil => simp at h
  | cons x xs ih =>
    by_cases hx : x = c
    · exact ⟨[], xs, by simp [splitOnce, hx]⟩
    · have hxs : c ∈ xs := by
        rcases List.mem_cons.mp h with h | h
        · exact absurd h.symm hx
        · exact h
      obtain ⟨a, b, hab⟩ := ih hxs
      exact ⟨x :: a, b, by simp [splitOnce, hx, hab]⟩

theorem splitAll_append_first (c : Char) (pre rest : Str) (h : c ∉ pre) :
    splitAll c (pre ++ c :: rest) = pre :: splitAll c rest := by
  induction pre with
  | nil =>
    match hsr : splitAll c rest with
    | [] => exact absurd hsr (splitAll_ne_nil c rest)
    | r :: rs => simp [splitAll, hsr]
  | cons x pre ih =>
    simp only [List.mem_cons, not_or] at h
    have hxc : ¬x = c := Ne.symm h.1
    simp only [List.cons_append, splitAll, List.append_eq, ih h.2, if_neg hxc]

theorem splitAll_first_two (c : Char) (pre seg post : Str) (hpre : c ∉ pre)
    (hseg : c ∉ seg) (hpost : post = [] ∨ startsWithChar c post = true) :
    ∃ tail, splitAll c (pre ++ c :: (seg ++ post)) = pre :: seg :: tail := by
  rw [splitAll_append_first c pre (seg ++ post) hpre]
  rcases hpost with rfl | hp
  · rw [List.append_nil, splitAll_not_mem c seg hseg]
    exact ⟨[], rfl⟩
  · cases post with
    | nil => simp [startsWithChar] at hp
    | cons y rest =>
      have hy : y = c := by simpa [startsWithChar] using hp
      rw [hy, splitAll_append_first c seg rest hseg]
      exact ⟨splitAll c rest, rfl⟩

theorem splitAll_segments (c : Char) (s : Str) :
    ∀ t ∈ splitAll c s, c ∉ t := by
  induction s with
  | nil =>
    intro t ht
    simp only [splitAll, List.mem_singleton] at ht
    subst ht
    simp
  | cons x xs ih =>
    intro t ht
    simp only [splitAll] at ht
    match hsr : splitAll c xs with
    | [] => exact absurd hsr (splitAll_ne_nil c xs)
    | r :: rs =>
      simp only [hsr] at ht
      by_cases hx : x = c
      · simp only [if_pos hx] at ht
        rcases List.mem_cons.mp ht with rfl | ht
        · simp
        · exact ih t (by rw [hsr]; exact ht)
      · simp only [if_neg hx] at ht
        rcases List.mem_cons.mp ht with rfl | ht
        · have hr : c ∉ r := ih r (by rw [hsr]; exact List.mem_cons_self r rs)
          simp only [List.mem_cons, not_or]
          exact ⟨fun hc => hx hc.symm, hr⟩
        · exact ih t (by rw [hsr]; exact List.mem_cons.mpr (.inr ht))

/-! ### C10: totality of the parser -/

/-- C10: `NotifierAddress::from_notifier_service` is total: on every input
it returns `ok` or the `DbusAddressError`, never the panic outcome; the
`split[1]` index in the colon branch is always in bounds because that
branch is only taken when the string contains `:`. -/
theorem from_notifier_service_total (service : Str) :
    ((∃ a, from_notifier_service service = .ok a) ∨
      from_notifier_service service = .dbusAddressError service) ∧
    from_notifier_service service ≠ .panic := by
  unfold from_notifier_service
  match hsp : splitOnce '/' service with
  | some (d, p) => exact ⟨.inl ⟨⟨d, '/' :: p⟩, rfl⟩, by simp⟩
  | none =>
    by_cases hc : ':' ∈ service
    · have hlen := splitAll_length_ge_two_of_mem ':' service hc
      match hget : (splitAll ':' service).get? 1 with
      | some seg =>
        refine ⟨.inl ⟨⟨':' :: seg, defaultItemPath⟩, ?_⟩, ?_⟩ <;> simp [hc, hget]
      | none =>
        rw [List.get?_eq_none] at hget
        omega
    · refine ⟨.inr ?_, ?_⟩ <;> simp [hc]

/-! ### C1: the slash-free branch of the parser -/

/-- C1 counterexample: the original claim fails in both directions.
`"a:b"` has no slash and does not begin with `:`, yet the parser returns
`Ok` (destination `":b"`) instead of the `DbusAddressError`; `":1:2"`
begins with `:`, yet the destination is `":1"`, not the whole input. -/
theorem from_notifier_service_claim_refuted :
    ('/' ∉ strL "a:b" ∧ startsWithChar ':' (strL "a:b") = false ∧
      from_notifier_service (strL "a:b") = .ok ⟨strL ":b", defaultItemPath⟩ ∧
      strL ":b" ≠ strL "a:b") ∧
    ('/' ∉ strL ":1:2" ∧ startsWithChar ':' (strL ":1:2") = true ∧
      from_notifier_service (strL ":1:2") = .ok ⟨strL ":1", defaultItemPath⟩ ∧
      strL ":1" ≠ strL ":1:2") := by decide

/-- C1 (amended): for every slash-free registration string, the parser
fails with `DbusAddressError` exactly on the strings containing no `:`;
every string containing `:` decomposes at its first `:` as
`pre ++ ':' :: (seg ++ post)` — with `seg` the (colon-free) text between
the first and the second `:`, i.e. `split[1]` — and parses to destination
`':' :: seg` with the fallback path; and the destination equals the whole
input exactly when the string begins with `:` and has no second `:`. -/
theorem from_notifier_service_slashless_spec (s : Str) (hs : '/' ∉ s) :
    (':' ∉ s → from_notifier_service s = .dbusAddressError s) ∧
    (':' ∈ s → ∃ pre seg post, s = pre ++ ':' :: (seg ++ post) ∧
      ':' ∉ pre ∧ ':' ∉ seg ∧ (post = [] ∨ startsWithChar ':' post = true) ∧
      from_notifier_service s = .ok ⟨':' :: seg, defaultItemPath⟩) ∧
    (from_notifier_service s = .ok ⟨s, defaultItemPath⟩ ↔
      startsWithChar ':' s = true ∧ ':' ∉ s.drop 1) := by
  have hsp := splitOnce_eq_none_of_not_mem '/' s hs
  refine ⟨?_, ?_, ?_⟩
  · intro hc
    simp [from_notifier_service, hsp, hc]
  · intro hc
    obtain ⟨pre, rest, hso⟩ := splitOnce_some_of_mem ':' s hc
    obtain ⟨hs_eq, hpre⟩ := splitOnce_some ':' s pre rest hso
    subst hs_eq
    by_cases hcr : ':' ∈ rest
    · obtain ⟨seg, rest2, hso2⟩ := splitOnce_some_of_mem ':' rest hcr
      obtain ⟨hr_eq, hseg⟩ := splitOnce_some ':' rest seg rest2 hso2
      subst hr_eq
      obtain ⟨tail, htail⟩ :=
        splitAll_first_two ':' pre seg (':' :: rest2) hpre hseg
          (.inr (by simp [startsWithChar]))
      refine ⟨pre, seg, ':' :: rest2, rfl, hpre, hseg,
        .inr (by simp [startsWithChar]), ?_⟩
      simp [from_notifier_service, hsp, hc, htail]
    · obtain ⟨tail, htail⟩ :=
        splitAll_first_two ':' pre rest [] hpre hcr (.inl rfl)
      rw [List.append_nil] at htail
      refine ⟨pre, rest, [], by simp, hpre, hcr, .inl rfl, ?_⟩
      simp [from_notifier_service, hsp, hc, htail]
  · constructor
    · intro hok
      by_cases hc : ':' ∈ s
      · have hlen := splitAll_length_ge_two_of_mem ':' s hc
        match hget : (splitAll ':' s)[1]? with
        | some seg =>
          have hres : from_notifier_service s = .ok ⟨':' :: seg, defaultItemPath⟩ := by
            simp [from_notifier_service, hsp, hc, hget]
          rw [hres] at hok
          simp only [ParseOutcome.ok.injEq, NotifierAddress.mk.injEq] at hok
          have hseq : ':' :: seg = s := hok.1
          have hsegnc : ':' ∉ seg :=
            splitAll_segments ':' s seg (List.getElem?_mem hget)
          constructor
          · rw [← hseq]
            simp [startsWithChar]
          · rw [← hseq]
            simpa using hsegnc
        | none =>
          rw [List.getElem?_eq_none_iff] at hget
          omega
      · have hres : from_notifier_service s = .dbusAddressError s := by
          simp [from_notifier_service, hsp, hc]
        rw [hres] at hok
        simp at hok
    · rintro ⟨hstart, hrest⟩
      cases s with
      | nil => simp [startsWithChar] at hstart
      | cons x rest =>
        have hx : x = ':' := by simpa [startsWithChar] using hstart
        subst hx
        have hrest' : ':' ∉ rest := by simpa using hrest
        have hall : splitAll ':' (':' :: rest) = [[], rest] := by
          simp [splitAll, splitAll_not_mem ':' rest hrest']
        have hmem : ':' ∈ ':' :: rest := List.mem_cons_self ':' rest
        simp [from_notifier_service, hsp, hmem, hall]

/-- Witness for `from_notifier_service_slashless_spec` at `":1.42"`. -/
theorem from_notifier_service_slashless_spec_witness :
    from_notifier_service (strL ":1.42") = .ok ⟨strL ":1.42", defaultItemPath⟩ :=
  (from_notifier_service_slashless_spec (strL ":1.42") (by decide)).2.2.mpr
    ⟨by decide, by decide⟩

/-! ### C8: round trip of the composite registration string -/

/-- C8: for every sender bus name containing no `/` and every object path
beginning with `/`, parsing the concatenation recovers the pair. -/
theorem registration_round_trip (sender path : Str) (h1 : '/' ∉ sender)
    (h2 : startsWithChar '/' path = true) :
    from_notifier_service (sender ++ path) = .ok ⟨sender, path⟩ := by
  cases path with
  | nil => simp [startsWithChar] at h2
  | cons x rest =>
    have hx : x = '/' := by simpa [startsWithChar] using h2
    subst hx
    have h := splitOnce_append '/' sender rest h1
    simp [from_notifier_service, h]

/-- Witness for `registration_round_trip` at the spec's slashed example. -/
theorem registration_round_trip_witness :
    from_notifier_service
        (strL ":1.42" ++ strL "/org/ayatana/NotificationItem/Element1") =
      .ok ⟨strL ":1.42", strL "/org/ayatana/NotificationItem/Element1"⟩ :=
  registration_round_trip (strL ":1.42")
    (strL "/org/ayatana/NotificationItem/Element1") (by decide) (by decide)

/-! ### C2: watcher unregistration -/

/-- C2 counterexample: with two registered items both beginning with the
unique name `":1.2"`, `remove_notifier ":1.2"` removes only the first
found; the other matching item stays registered, refuting "every
registered item whose composite contains that name is removed". -/
theorem remove_notifier_claim_refuted :
    contains_sub (strL ":1.2") (strL ":1.2/b") = true ∧
    strL ":1.2/b" ∈
      (remove_notifier [strL ":1.2/a", strL ":1.2/b"] (strL ":1.2")).1 := by
  decide

/-- C2 (amended): `remove_notifier` removes at most one registered item:
items whose composite does not contain the name always stay; when no item
matches, the registry is untouched and nothing is emitted; when some item
matches, exactly one matching item is erased and a single `Remove`
carrying the passed-in name is emitted. -/
theorem remove_notifier_spec (registry : List Str) (addr : Str) :
    (∀ item ∈ registry, contains_sub addr item = false →
        item ∈ (remove_notifier registry addr).1) ∧
    ((∀ item ∈ registry, contains_sub addr item = false) →
        remove_notifier registry addr = (registry, [])) ∧
    (∀ item ∈ registry, contains_sub addr item = true →
        ∃ notifier ∈ registry, contains_sub addr notifier = true ∧
          remove_notifier registry addr =
            (registry.erase notifier, [.remove addr])) := by
  match hf : registry.find? (fun item => contains_sub addr item) with
  | some notifier =>
    have hn_mem : notifier ∈ registry := List.mem_of_find?_eq_some hf
    have hn_p : contains_sub addr notifier = true := List.find?_some hf
    refine ⟨?_, ?_, ?_⟩
    · intro item him hfalse
      have hne : item ≠ notifier := by
        intro he
        rw [he, hn_p] at hfalse
        cases hfalse
      simp only [remove_notifier, hf]
      exact (List.mem_erase_of_ne hne).mpr him
    · intro hall
      rw [hall notifier hn_mem] at hn_p
      cases hn_p
    · intro item _ _
      exact ⟨notifier, hn_mem, hn_p, by simp [remove_notifier, hf]⟩
  | none =>
    have hall := List.find?_eq_none.mp hf
    refine ⟨?_, ?_, ?_⟩
    · intro item him _
      simp only [remove_notifier, hf]
      exact him
    · intro _
      simp [remove_notifier, hf]
    · intro item him htrue
      exact absurd htrue (hall item him)

/-- Witness for `remove_notifier_spec`: a registered item not containing
the unregistered name stays registered. -/
theorem remove_notifier_spec_witness :
    strL ":1.2/b" ∈ (remove_notifier [strL ":1.2/b"] (strL ":9")).1 :=
  (remove_notifier_spec [strL ":1.2/b"] (strL ":9")).1 (strL ":1.2/b")
    (by decide) (by decide)

/-! ### C5: the swapped Status parser -/

/-- C5: `Status::from_str` maps `"Passive"` to `Active` and `"Active"` to
`Passive` (the swap is in the source), and errors on every other string. -/
theorem status_from_str_swapped :
    Status.from_str (strL "Passive") = .ok .Active ∧
    Status.from_str (strL "Active") = .ok .Passive ∧
    ∀ s, s ≠ strL "Passive" → s ≠ strL "Active" →
      Status.from_str s = .error (.unknownStatus s) := by
  refine ⟨rfl, rfl, ?_⟩
  intro s h1 h2
  simp [Status.from_str, h1, h2]

/-- Witness for `status_from_str_swapped` at `"Halted"`. -/
theorem status_from_str_swapped_witness :
    Status.from_str (strL "Halted") = .error (.unknownStatus (strL "Halted")) :=
  status_from_str_swapped.2.2 (strL "Halted") (by decide) (by decide)

/-! ### C6: bags without an Id publish nothing -/

/-- C6: a property bag with no `Id` key fails the conversion with the
missing-id error, and the fetch cycle publishes no message at all. -/
theorem missing_id_no_update (props : DBusProperties) (addr : Str)
    (menu_fetch : Option TrayMenu)
    (h : props.find? (fun e => e.1 == strL "Id") = none) :
    StatusNotifierItem.try_from props = .err .missingId ∧
    fetch_properties_and_update addr props menu_fetch = [] := by
  have hg : get_string props (strL "Id") = none := by
    simp [get_string, props_find, h]
  exact ⟨by simp [StatusNotifierItem.try_from, hg],
    by simp [fetch_properties_and_update, StatusNotifierItem.try_from, hg]⟩

/-- Witness for `missing_id_no_update` on a bag holding only a title. -/
theorem missing_id_no_update_witness :
    StatusNotifierItem.try_from [(strL "Title", DVal.str (strL "t"))] =
        .err .missingId ∧
    fetch_properties_and_update (strL ":1.5")
        [(strL "Title", DVal.str (strL "t"))] none = [] :=
  missing_id_no_update [(strL "Title", DVal.str (strL "t"))] (strL ":1.5")
    none rfl

/-! ### C4: empty IconThemePath is not treated as absent -/

/-- C4 counterexample: a bag with `IconThemePath = ""` converts to an
item whose `icon_theme_path` is `Some("")`, not `None`. -/
theorem icon_theme_path_empty_refuted :
    StatusNotifierItem.try_from props_empty_theme = .ok item_empty_theme ∧
    item_empty_theme.icon_theme_path = some (strL "") ∧
    item_empty_theme.icon_theme_path ≠ none := by
  refine ⟨rfl, rfl, by simp [item_empty_theme]⟩

/-- C4 (amended): whenever the conversion succeeds, `icon_theme_path` is
exactly the raw string value of the `IconThemePath` key — `Some` of the
string when the key holds a string (the empty string included), `None`
only when the key is absent or non-string. -/
theorem icon_theme_path_raw_spec (props : DBusProperties)
    (item : StatusNotifierItem)
    (h : StatusNotifierItem.try_from props = .ok item) :
    item.icon_theme_path = get_string props (strL "IconThemePath") := by
  unfold StatusNotifierItem.try_from at h
  cases hid : get_string props (strL "Id") with
  | none => simp [hid] at h
  | some id =>
    simp only [hid] at h
    cases hcat : get_category props with
    | error e => simp [hcat] at h
    | ok category =>
      simp only [hcat] at h
      cases hst : get_status props with
      | error e => simp [hst] at h
      | ok status =>
        simp only [hst] at h
        cases hpix : get_icon_pixmap props with
        | err e => simp [hpix] at h
        | panic => simp [hpix] at h
        | ok pix =>
          simp only [hpix, SRes.ok.injEq] at h
          subst h
          rfl

/-- Witness for `icon_theme_path_raw_spec` at the empty-string bag. -/
theorem icon_theme_path_raw_spec_witness :
    item_empty_theme.icon_theme_path =
      get_string props_empty_theme (strL "IconThemePath") :=
  icon_theme_path_raw_spec props_empty_theme item_empty_theme rfl


/-! ### Menu decoding: helper lemmas and the tree claims (C3, C7, C9) -/


theorem strip_underscores_not_mem (l : Str) : '_' ∉ strip_underscores l := by
  intro hmem
  have h2 := List.mem_filter.mp hmem
  simp at h2

theorem read_menu_dict_ok (entries : List (Str × DVal)) (m0 d : MenuItemData)
    (h : read_menu_dict entries m0 = .ok d) :
    (∃ lab, dict_get_str entries (strL "label") = .ok lab ∧
        d.label = (lab.map strip_underscores).getD []) ∧
    d.toggle_state =
      (match dict_get_bool entries (strL "toggle-state") with
        | .ok (some b) => ToggleState.fromBool b
        | _ => .Indeterminate) := by
  unfold read_menu_dict at h
  cases h1 : dict_get_str entries (strL "children_display") with
  | error e => simp [h1] at h
  | ok cd =>
    simp only [h1] at h
    cases h2 : dict_get_str entries (strL "label") with
    | error e => simp [h2] at h
    | ok lab =>
      simp only [h2] at h
      cases h3 : dict_get_bool entries (strL "enabled") with
      | error e => simp [h3] at h
      | ok en =>
        simp only [h3] at h
        cases h4 : dict_get_bool entries (strL "visible") with
        | error e => simp [h4] at h
        | ok vis =>
          simp only [h4] at h
          cases h5 : dict_get_str entries (strL "icon-name") with
          | error e => simp [h5] at h
          | ok ico =>
            simp only [h5, Except.ok.injEq] at h
            subst h
            constructor
            · refine ⟨lab, rfl, ?_⟩
              cases en <;> cases vis <;> (repeat' split) <;> rfl
            · cases en <;> cases vis <;> (repeat' split) <;> rfl

theorem read_menu_dict_err (entries : List (Str × DVal)) (m0 : MenuItemData)
    (h : dict_get_str entries (strL "children_display") = .error () ∨
         dict_get_str entries (strL "label") = .error () ∨
         dict_get_bool entries (strL "enabled") = .error () ∨
         dict_get_bool entries (strL "visible") = .error () ∨
         dict_get_str entries (strL "icon-name") = .error ()) :
    read_menu_dict entries m0 = .error () := by
  unfold read_menu_dict
  cases h1 : dict_get_str entries (strL "children_display") with
  | error e => rfl
  | ok cd =>
    cases h2 : dict_get_str entries (strL "label") with
    | error e => rfl
    | ok lab =>
      cases h3 : dict_get_bool entries (strL "enabled") with
      | error e => rfl
      | ok en =>
        cases h4 : dict_get_bool entries (strL "visible") with
        | error e => rfl
        | ok vis =>
          cases h5 : dict_get_str entries (strL "icon-name") with
          | error e => rfl
          | ok ico =>
            rcases h with h | h | h | h | h <;> simp_all

theorem read_menu_dict_ok_fields (entries : List (Str × DVal))
    (m0 d : MenuItemData) (cd lab : Option Str) (en vis : Option Bool)
    (ico : Option Str)
    (h : read_menu_dict entries m0 = .ok d)
    (h1 : dict_get_str entries (strL "children_display") = .ok cd)
    (h2 : dict_get_str entries (strL "label") = .ok lab)
    (h3 : dict_get_bool entries (strL "enabled") = .ok en)
    (h4 : dict_get_bool entries (strL "visible") = .ok vis)
    (h5 : dict_get_str entries (strL "icon-name") = .ok ico) :
    d = { m0 with
      children_display := cd,
      label := (lab.map strip_underscores).getD [],
      enabled := en.getD m0.enabled,
      visible := vis.getD m0.visible,
      icon_name := ico,
      disposition :=
        match dict_get_str entries (strL "disposition") with
        | .ok (some sd) =>
          match Disposition.from_str sd with
          | .ok dd => dd
          | .error _ => m0.disposition
        | _ => m0.disposition,
      toggle_state :=
        match dict_get_bool entries (strL "toggle-state") with
        | .ok (some b) => ToggleState.fromBool b
        | _ => .Indeterminate,
      toggle_type :=
        match dict_get_str entries (strL "toggle-type") with
        | .ok (some st) =>
          match ToggleType.from_str st with
          | .ok t => t
          | .error _ => .CannotBeToggled
        | _ => .CannotBeToggled,
      menu_type :=
        match dict_get_str entries (strL "type") with
        | .ok (some sm) =>
          match MenuType.from_str sm with
          | .ok t => t
          | .error _ => .Standard
        | _ => .Standard } := by
  unfold read_menu_dict at h
  simp only [h1] at h
  simp only [h2] at h
  simp only [h3] at h
  simp only [h4] at h
  simp only [h5, Except.ok.injEq] at h
  subst h
  cases en <;> cases vis <;>
    simp only [Option.getD_some, Option.getD_none] <;>
    (repeat' split) <;> rfl

theorem menu_item_id_of_label (x : Option DVal) : (menu_item_id_of x).label = [] := by
  rcases x with _ | v
  · rfl
  · cases v <;> rfl

theorem menu_item_id_of_toggle (x : Option DVal) :
    (menu_item_id_of x).toggle_state = .Indeterminate := by
  rcases x with _ | v
  · rfl
  · cases v <;> rfl

theorem menu_item_fields_label_clean (fields : List DVal) (d : MenuItemData)
    (h : menu_item_fields fields = .ok d) :
    (!d.label.contains '_') = true := by
  unfold menu_item_fields at h
  cases hf : fields.get? 1 with
  | none =>
    simp only [hf, Except.ok.injEq] at h
    subst h
    simp [menu_item_id_of_label]
  | some v =>
    cases v
    case dict entries =>
      simp only [hf] at h
      obtain ⟨⟨lab, _, hdl⟩, _⟩ := read_menu_dict_ok entries _ d h
      rw [hdl]
      cases lab with
      | none => rfl
      | some l => simp [strip_underscores_not_mem l]
    all_goals
      simp only [hf, Except.ok.injEq] at h
    all_goals
      subst h
    all_goals
      simp [menu_item_id_of_label]

theorem menu_item_fields_toggle_not_off (fields : List DVal) (d : MenuItemData)
    (h : menu_item_fields fields = .ok d) :
    (d.toggle_state != ToggleState.Off) = true := by
  unfold menu_item_fields at h
  cases hf : fields.get? 1 with
  | none =>
    simp only [hf, Except.ok.injEq] at h
    subst h
    rw [menu_item_id_of_toggle]
    rfl
  | some v =>
    cases v
    case dict entries =>
      simp only [hf] at h
      have ht := (read_menu_dict_ok entries _ d h).2
      rw [ht]
      cases hb : dict_get_bool entries (strL "toggle-state") with
      | error e => rfl
      | ok ob =>
        cases ob with
        | none => rfl
        | some b => cases b <;> rfl
    all_goals
      simp only [hf, Except.ok.injEq] at h
    all_goals
      subst h
    all_goals
      rw [menu_item_id_of_toggle]
    all_goals
      rfl


theorem allNodes_aux (p : MenuItemData → Bool)
    (hp : ∀ fields d, menu_item_fields fields = .ok d → p d = true) :
    ∀ n : Nat,
      (∀ (v : DVal) (m : MenuItem), sizeOf v ≤ n → MenuItem.try_from v = .ok m →
        MenuItem.allNodes p m = true) ∧
      (∀ (l : List DVal) (ms : List MenuItem), sizeOf l ≤ n →
        MenuItem.try_from_list l = .ok ms → MenuItem.allNodesList p ms = true) := by
  intro n
  induction n using Nat.strong_induction_on with
  | _ n ih =>
    constructor
    · intro v m hsize h
      cases v with
      | strct fields =>
        unfold MenuItem.try_from at h
        cases hmf : menu_item_fields fields with
        | error e => simp [hmf] at h
        | ok d =>
          simp only [hmf] at h
          rcases fields with _ | ⟨f0, _ | ⟨f1, _ | ⟨f2, rest⟩⟩⟩
          · simp only [MRes.ok.injEq] at h
            subst h
            simp [MenuItem.allNodes, MenuItem.allNodesList, hp _ _ hmf]
          · simp only [MRes.ok.injEq] at h
            subst h
            simp [MenuItem.allNodes, MenuItem.allNodesList, hp _ _ hmf]
          · simp only [MRes.ok.injEq] at h
            subst h
            simp [MenuItem.allNodes, MenuItem.allNodesList, hp _ _ hmf]
          · cases f2
            case arr items =>
              cases hl : MenuItem.try_from_list items with
              | ok sub =>
                simp only [hl, MRes.ok.injEq] at h
                subst h
                have hlt : sizeOf items < n := by
                  simp at hsize
                  omega
                have hsub := (ih (sizeOf items) hlt).2 items sub le_rfl hl
                simp [MenuItem.allNodes, hp _ _ hmf, hsub]
              | err => simp [hl] at h
              | panic => simp [hl] at h
            all_goals
              simp only [MRes.ok.injEq] at h
            all_goals
              subst h
            all_goals
              simp [MenuItem.allNodes, MenuItem.allNodesList, hp _ _ hmf]
      | i32 k => simp [MenuItem.try_from] at h
      | u8 k => simp [MenuItem.try_from] at h
      | str s => simp [MenuItem.try_from] at h
      | bool b => simp [MenuItem.try_from] at h
      | objPath s => simp [MenuItem.try_from] at h
      | dict es => simp [MenuItem.try_from] at h
      | arr items => simp [MenuItem.try_from] at h
      | other => simp [MenuItem.try_from] at h
    · intro l ms hsize h
      cases l with
      | nil =>
        simp only [MenuItem.try_from_list, MRes.ok.injEq] at h
        subst h
        rfl
      | cons x xs =>
        unfold MenuItem.try_from_list at h
        cases hx : MenuItem.try_from x with
        | ok m =>
          simp only [hx] at h
          cases hxs : MenuItem.try_from_list xs with
          | ok ms2 =>
            simp only [hxs, MRes.ok.injEq] at h
            subst h
            have hxlt : sizeOf x < n := by
              simp at hsize
              omega
            have hxslt : sizeOf xs < n := by
              simp at hsize
              omega
            have h1 := (ih (sizeOf x) hxlt).1 x m le_rfl hx
            have h2 := (ih (sizeOf xs) hxslt).2 xs ms2 le_rfl hxs
            simp [MenuItem.allNodesList, h1, h2]
          | err => simp [hxs] at h
          | panic => simp [hxs] at h
        | err => simp [hx] at h
        | panic => simp [hx] at h

theorem try_from_ok_allNodes (p : MenuItemData → Bool)
    (hp : ∀ fields d, menu_item_fields fields = .ok d → p d = true)
    (v : DVal) (m : MenuItem) (h : MenuItem.try_from v = .ok m) :
    MenuItem.allNodes p m = true :=
  (allNodes_aux p hp (sizeOf v)).1 v m le_rfl h

theorem try_from_list_ok_allNodes (p : MenuItemData → Bool)
    (hp : ∀ fields d, menu_item_fields fields = .ok d → p d = true)
    (l : List DVal) (ms : List MenuItem)
    (h : MenuItem.try_from_list l = .ok ms) :
    MenuItem.allNodesList p ms = true :=
  (allNodes_aux p hp (sizeOf l)).2 l ms le_rfl h


theorem try_from_list_cons (x : DVal) (xs : List DVal) :
    MenuItem.try_from_list (x :: xs) =
      (match MenuItem.try_from x with
        | .ok m =>
          match MenuItem.try_from_list xs with
          | .ok ms => .ok (m :: ms)
          | .err => .err
          | .panic => .panic
        | .err => .err
        | .panic => .panic) := rfl

theorem try_from_list_append (pre post : List DVal) (ms : List MenuItem)
    (h : MenuItem.try_from_list pre = .ok ms) :
    MenuItem.try_from_list (pre ++ post) =
      (match MenuItem.try_from_list post with
        | .ok ms2 => .ok (ms ++ ms2)
        | .err => .err
        | .panic => .panic) := by
  induction pre generalizing ms with
  | nil =>
    simp only [MenuItem.try_from_list, MRes.ok.injEq] at h
    subst h
    simp only [List.nil_append]
    cases hpost : MenuItem.try_from_list post <;> simp [hpost]
  | cons x xs ih =>
    rw [try_from_list_cons] at h
    cases hx : MenuItem.try_from x with
    | ok m =>
      simp only [hx] at h
      cases hxs : MenuItem.try_from_list xs with
      | ok ms2 =>
        simp only [hxs, MRes.ok.injEq] at h
        subst h
        rw [List.cons_append, try_from_list_cons, hx, ih ms2 hxs]
        cases hpost : MenuItem.try_from_list post <;> simp [hpost]
      | err => simp [hxs] at h
      | panic => simp [hxs] at h
    | err => simp [hx] at h
    | panic => simp [hx] at h

/-- C3 counterexample: decoding a layout with a well-formed first child
and a second child whose `label` entry holds a boolean fails for the
whole tree (the sibling is dropped), refuting "a single malformed child
never makes the conversion of the whole tree fail". -/
theorem menu_malformed_child_refuted :
    MenuItem.try_from good_node =
      .ok (.node { MenuItemData.default with id := 1, label := strL "Ok" } []) ∧
    MenuItem.try_from bad_label_node = .err ∧
    TrayMenu.try_from ⟨0, [good_node, bad_label_node]⟩ = .err :=
  ⟨rfl, rfl, rfl⟩

/-- C3 (amended): (1) an erroring child fails the whole list, dropping
its siblings; (2) likewise a panicking child; (3) every non-structure
node panics; (4) a type mismatch under any of the `children_display`,
`label`, `enabled`, `visible` or `icon-name` keys (a `Dict::get` error)
makes the node — and with (1) the whole tree — fail; (5) whenever the
dict reads succeed, the decoded scalar fields are fully characterized:
missing entries keep their defaults, the label is the underscore-stripped
string, and a mismatched or unparsable `disposition`, `toggle-state`,
`toggle-type` or `type` entry falls back to its default; (6-7) concrete
anchors: a boolean-label node errors, a node with an empty dict decodes
to all defaults. -/
theorem menu_malformed_child_spec :
    (∀ (pre : List DVal) (v : DVal) (post : List DVal) (ms : List MenuItem),
        MenuItem.try_from_list pre = .ok ms → MenuItem.try_from v = .err →
        MenuItem.try_from_list (pre ++ v :: post) = .err) ∧
    (∀ (pre : List DVal) (v : DVal) (post : List DVal) (ms : List MenuItem),
        MenuItem.try_from_list pre = .ok ms → MenuItem.try_from v = .panic →
        MenuItem.try_from_list (pre ++ v :: post) = .panic) ∧
    (∀ v : DVal, (∀ fields, v ≠ .strct fields) → MenuItem.try_from v = .panic) ∧
    (∀ (fields : List DVal) (entries : List (Str × DVal)),
        fields.get? 1 = some (.dict entries) →
        (dict_get_str entries (strL "children_display") = .error () ∨
         dict_get_str entries (strL "label") = .error () ∨
         dict_get_bool entries (strL "enabled") = .error () ∨
         dict_get_bool entries (strL "visible") = .error () ∨
         dict_get_str entries (strL "icon-name") = .error ()) →
        MenuItem.try_from (.strct fields) = .err) ∧
    (∀ (entries : List (Str × DVal)) (m0 d : MenuItemData)
        (cd lab : Option Str) (en vis : Option Bool) (ico : Option Str),
        read_menu_dict entries m0 = .ok d →
        dict_get_str entries (strL "children_display") = .ok cd →
        dict_get_str entries (strL "label") = .ok lab →
        dict_get_bool entries (strL "enabled") = .ok en →
        dict_get_bool entries (strL "visible") = .ok vis →
        dict_get_str entries (strL "icon-name") = .ok ico →
        d = { m0 with
          children_display := cd,
          label := (lab.map strip_underscores).getD [],
          enabled := en.getD m0.enabled,
          visible := vis.getD m0.visible,
          icon_name := ico,
          disposition :=
            match dict_get_str entries (strL "disposition") with
            | .ok (some sd) =>
              match Disposition.from_str sd with
              | .ok dd => dd
              | .error _ => m0.disposition
            | _ => m0.disposition,
          toggle_state :=
            match dict_get_bool entries (strL "toggle-state") with
            | .ok (some b) => ToggleState.fromBool b
            | _ => .Indeterminate,
          toggle_type :=
            match dict_get_str entries (strL "toggle-type") with
            | .ok (some st) =>
              match ToggleType.from_str st with
              | .ok t => t
              | .error _ => .CannotBeToggled
            | _ => .CannotBeToggled,
          menu_type :=
            match dict_get_str entries (strL "type") with
            | .ok (some sm) =>
              match MenuType.from_str sm with
              | .ok t => t
              | .error _ => .Standard
            | _ => .Standard }) ∧
    MenuItem.try_from bad_label_node = .err ∧
    MenuItem.try_from (.strct [.i32 5, .dict [], .arr []]) =
      .ok (.node { MenuItemData.default with id := 5 } []) := by
  refine ⟨?_, ?_, ?_, ?_, ?_, rfl, rfl⟩
  · intro pre v post ms hpre hv
    rw [try_from_list_append pre (v :: post) ms hpre, try_from_list_cons, hv]
  · intro pre v post ms hpre hv
    rw [try_from_list_append pre (v :: post) ms hpre, try_from_list_cons, hv]
  · intro v hv
    cases v with
    | strct fields => exact absurd rfl (hv fields)
    | i32 n => rfl
    | u8 n => rfl
    | str s => rfl
    | bool b => rfl
    | objPath s => rfl
    | dict es => rfl
    | arr items => rfl
    | other => rfl
  · intro fields entries hf hdisj
    have herr : menu_item_fields fields = .error () := by
      unfold menu_item_fields
      simp only [hf]
      exact read_menu_dict_err entries _ hdisj
    unfold MenuItem.try_from
    simp only [herr]
  · intro entries m0 d cd lab en vis ico h h1 h2 h3 h4 h5
    exact read_menu_dict_ok_fields entries m0 d cd lab en vis ico h h1 h2 h3 h4 h5

/-- Witness for `menu_malformed_child_spec`. -/
theorem menu_malformed_child_spec_witness :
    MenuItem.try_from_list [good_node, bad_label_node] = .err :=
  menu_malformed_child_spec.1 [good_node] bad_label_node []
    [.node { MenuItemData.default with id := 1, label := strL "Ok" } []] rfl rfl

/-- C7. -/
theorem menu_labels_no_underscore :
    (∀ (lay : MenuLayout) (t : TrayMenu), TrayMenu.try_from lay = .ok t →
        MenuItem.allNodesList (fun d => !d.label.contains '_') t.submenus = true) ∧
    MenuItem.try_from file_node =
      .ok (.node { MenuItemData.default with id := 1, label := strL "File" } []) := by
  constructor
  · intro lay t h
    unfold TrayMenu.try_from at h
    cases hl : MenuItem.try_from_list lay.submenus with
    | ok subs =>
      simp only [hl, MRes.ok.injEq] at h
      subst h
      exact try_from_list_ok_allNodes _ menu_item_fields_label_clean
        lay.submenus subs hl
    | err => simp [hl] at h
    | panic => simp [hl] at h
  · rfl

/-- Witness for `menu_labels_no_underscore`. -/
theorem menu_labels_no_underscore_witness :
    MenuItem.allNodesList (fun d => !d.label.contains '_')
      [.node { MenuItemData.default with id := 1, label := strL "File" } []] = true :=
  menu_labels_no_underscore.1 ⟨7, [file_node]⟩
    ⟨7, [.node { MenuItemData.default with id := 1, label := strL "File" } []]⟩ rfl

/-- C9. -/
theorem toggle_state_never_off :
    ToggleState.fromBool true = .On ∧
    ToggleState.fromBool false = .Indeterminate ∧
    (∀ (lay : MenuLayout) (t : TrayMenu), TrayMenu.try_from lay = .ok t →
        MenuItem.allNodesList (fun d => d.toggle_state != .Off) t.submenus = true) ∧
    (∀ (entries : List (Str × DVal)) (m0 d : MenuItemData),
        read_menu_dict entries m0 = .ok d →
        d.toggle_state =
          (match dict_get_bool entries (strL "toggle-state") with
            | .ok (some b) => ToggleState.fromBool b
            | _ => .Indeterminate)) := by
  refine ⟨rfl, rfl, ?_, ?_⟩
  · intro lay t h
    unfold TrayMenu.try_from at h
    cases hl : MenuItem.try_from_list lay.submenus with
    | ok subs =>
      simp only [hl, MRes.ok.injEq] at h
      subst h
      exact try_from_list_ok_allNodes _ menu_item_fields_toggle_not_off
        lay.submenus subs hl
    | err => simp [hl] at h
    | panic => simp [hl] at h
  · intro entries m0 d h
    exact (read_menu_dict_ok entries m0 d h).2

/-- Witness for `toggle_state_never_off`. -/
theorem toggle_state_never_off_witness :
    MenuItemData.default.toggle_state =
      (match dict_get_bool [] (strL "toggle-state") with
        | .ok (some b) => ToggleState.fromBool b
        | _ => .Indeterminate) :=
  toggle_state_never_off.2.2.2 [] MenuItemData.default MenuItemData.default rfl
